import Mathlib

/-!
Verification of the `nld` document-validation core against its design
specification.  The definitions below are a shallow embedding of the Go
sources `internal/validator/validator.go` and the schema package: pure Go
functions become Lean functions; the JSON decoder (`encoding/json.Unmarshal`)
and the third-party jsonschema library's `Schema.Validate` are modelled as
explicit function parameters, since their code is not part of this
repository.  Go byte strings are modelled as Lean `String`s (byte offsets
become character offsets; the documents in question are ASCII), Go `int` as
`Int`, and a returned Go `error` as `Option String` (`none` = `nil`).
-/

/-- Embeds the Go struct `ValidationError` (validator.go:28-33): a validation
error with location information. -/
structure ValidationError where
  Field : String
  Message : String
  Line : Int
  Column : Int
deriving DecidableEq, Repr

/-- Embeds the Go struct `ValidationWarning` (validator.go:36-39). -/
structure ValidationWarning where
  Field : String
  Message : String
deriving DecidableEq, Repr

/-- Embeds the Go struct `ValidationResult` (validator.go:21-25): the result
of a validation operation. -/
structure ValidationResult where
  Valid : Bool
  Errors : List ValidationError
  Warnings : List ValidationWarning
deriving DecidableEq, Repr

/-- The shape of the jsonschema library's `*jsonschema.ValidationError`, as
consumed by `convertValidationErrors`: an instance-location pointer, a
message, and an ordered list of causes (sub-errors), recursively. -/
inductive VError where
  | mk (InstanceLocation : String) (Message : String) (Causes : List VError)
deriving Repr

/-- Projection: the `InstanceLocation` field of a `VError`. -/
def VError.instanceLocation : VError → String
  | .mk l _ _ => l

/-- Projection: the `Message` field of a `VError`. -/
def VError.message : VError → String
  | .mk _ m _ => m

/-- Projection: the `Causes` field of a `VError`. -/
def VError.causes : VError → List VError
  | .mk _ _ c => c

/-- A generic decoded JSON value, the result Go's `json.Unmarshal` stores in
an `interface{}` (validator.go:74). -/
inductive JsonValue where
  | null
  | bool (b : Bool)
  | num (n : Int)
  | str (s : String)
  | arr (elems : List JsonValue)
  | obj (fields : List (String × JsonValue))

/-- Outcome of `json.Unmarshal(docBytes, &doc)`: either a decoded value or a
decode error carrying the error's message string. -/
inductive UnmarshalResult where
  | ok (doc : JsonValue)
  | err (msg : String)

/-- `startsWithCS pre cs` is true when `pre` is a prefix of `cs`. -/
def startsWithCS : List Char → List Char → Bool
  | [], _ => true
  | _ :: _, [] => false
  | a :: as, b :: bs => a = b && startsWithCS as bs

/-- `containsCS s sub` is true when `sub` occurs contiguously in `s`. -/
def containsCS (s sub : List Char) : Bool :=
  match s with
  | [] => sub.isEmpty
  | _ :: rest => startsWithCS sub s || containsCS rest sub

/-- Go `strings.Contains(s, sub)`. -/
def stringsContains (s sub : String) : Bool :=
  containsCS s.toList sub.toList

/-- Go `strings.Split(s, sep)` for a non-empty separator (the only way the
source calls it); Lean's `splitOn` has the same semantics there. -/
def stringsSplit (s sep : String) : List String :=
  s.splitOn sep

/-- Go `strings.Count(s, "\n")`: number of newline characters. -/
def countNewlines (cs : List Char) : Nat :=
  cs.countP (fun c => c = '\n')

/-- Value of a digit list read most-significant first. -/
def digitsToNat (cs : List Char) : Nat :=
  cs.foldl (fun acc c => acc * 10 + (c.toNat - '0'.toNat)) 0

/-- Consume a maximal prefix of decimal digits (most-significant first),
returning the digit characters and the rest. -/
def spanDigits (cs : List Char) : List Char × List Char :=
  (cs.takeWhile Char.isDigit, cs.dropWhile Char.isDigit)

/-- `fmt.Sscanf`'s `%d` verb applied after skipping blanks: optional sign,
then at least one decimal digit; trailing input is ignored (Sscanf succeeds
once every verb has matched). -/
def sscanfInt (s : String) : Option Int :=
  let cs := s.toList.dropWhile (fun c => c = ' ' || c = '\t')
  match cs with
  | '-' :: rest =>
    let (ds, _) := spanDigits rest
    if ds.isEmpty then none else some (-(digitsToNat ds : Int))
  | '+' :: rest =>
    let (ds, _) := spanDigits rest
    if ds.isEmpty then none else some (digitsToNat ds : Int)
  | _ =>
    let (ds, _) := spanDigits cs
    if ds.isEmpty then none else some (digitsToNat ds : Int)

/-- Match a literal prefix of characters, returning the remainder. -/
def dropLiteral : List Char → List Char → Option (List Char)
  | [], rest => some rest
  | _ :: _, [] => none
  | p :: ps, c :: cs => if p = c then dropLiteral ps cs else none

/-- `fmt.Sscanf(errMsg, "invalid character '%c' at offset %d", ...)`
(validator.go:198, 227): the literal text, one arbitrary rune for `%c`, the
literal `' at offset `, then a decimal integer; returns the parsed offset. -/
def sscanfInvalidCharOffset (s : String) : Option Int :=
  match dropLiteral "invalid character \x27".toList s.toList with
  | none => none
  | some rest =>
    match rest with
    | [] => none
    | _ :: rest2 =>
      match dropLiteral "\x27 at offset".toList rest2 with
      | none => none
      | some rest3 => sscanfInt (String.mk rest3)

/-- Embeds Go `min` (validator.go:243-248). -/
def goMin (a b : Int) : Int :=
  if a < b then a else b

/-- Embeds `findErrorLine` (validator.go:179-206): first try to scan a line
number after a literal `line` in the error message; failing that, parse the
decoder's `invalid character '…' at offset N` form and count newlines in
`content[:min(N, len(content))]`, 1-based; otherwise 0. -/
def findErrorLine (errMsg content : String) : Int :=
  let fromLineToken : Option Int :=
    if stringsContains errMsg "line" then
      match stringsSplit errMsg "line" with
      | _ :: p1 :: _ => sscanfInt p1
      | _ => none
    else none
  match fromLineToken with
  | some n => n
  | none =>
    let fromOffset : Option Int :=
      if stringsContains errMsg "offset" then sscanfInvalidCharOffset errMsg
      else none
    match fromOffset with
    | some off =>
      (countNewlines (content.toList.take (goMin off content.length).toNat) : Int) + 1
    | none => 0

/-- Go `strings.LastIndex(s, "\n")`: index of the last newline, `-1` when
there is none. -/
def lastNewlineIndex (cs : List Char) : Int :=
  (List.range cs.length).foldl
    (fun acc i => if cs.getD i ' ' = '\n' then (i : Int) else acc) (-1)

/-- Embeds `findErrorColumn` (validator.go:209-240).  Note the source quirk:
in the offset fallback it sets `content := err.Error()` and searches for the
last newline in the *error message*, not in the document. -/
def findErrorColumn (errMsg : String) : Int :=
  let fromColumnToken : Option Int :=
    if stringsContains errMsg "column" then
      match stringsSplit errMsg "column" with
      | _ :: p1 :: _ => sscanfInt p1
      | _ => none
    else none
  match fromColumnToken with
  | some n => n
  | none =>
    let fromOffset : Option Int :=
      if stringsContains errMsg "offset" then sscanfInvalidCharOffset errMsg
      else none
    match fromOffset with
    | some off =>
      let content := errMsg
      let lastNewline :=
        lastNewlineIndex (content.toList.take (goMin off content.length).toNat)
      if lastNewline = -1 then off + 1 else off - lastNewline
    | none => 0

/-- Embeds `convertValidationErrors` (validator.go:157-176): emit one
`ValidationError` for the violation itself (field = instance location, no
line/column information), then append the conversions of its causes in
order. -/
def convertValidationErrors : VError → List ValidationError
  | .mk loc msg causes =>
    { Field := loc, Message := msg, Line := 0, Column := 0 } ::
      (causes.attach.map (fun c => convertValidationErrors c.1)).flatten
termination_by ve => sizeOf ve
decreasing_by
  have := List.sizeOf_lt_of_mem c.2
  simp only [VError.mk.sizeOf_spec]
  omega

/-- Embeds `ValidateBytes` (validator.go:72-101).  The decoder
(`json.Unmarshal`) and the compiled schema's `Validate` method are passed as
functions: `unmarshal` returns either a decoded value or an error message,
and `schemaValidate` returns `none` on success or the library's validation
error tree on failure.  The second component of the result is the returned
Go `error` (`none` = `nil`). -/
def ValidateBytes (unmarshal : String → UnmarshalResult)
    (schemaValidate : JsonValue → Option VError) (docBytes : String) :
    ValidationResult × Option String :=
  match unmarshal docBytes with
  | .err e =>
    ({ Valid := false,
       Errors := [{ Field := "",
                    Message := "Invalid JSON: " ++ e,
                    Line := findErrorLine e docBytes,
                    Column := findErrorColumn e }],
       Warnings := [] }, none)
  | .ok doc =>
    match schemaValidate doc with
    | some ve =>
      ({ Valid := false,
         Errors := convertValidationErrors ve,
         Warnings := [] }, none)
    | none => ({ Valid := true, Errors := [], Warnings := [] }, none)

/-- Embeds the backward-compatibility method `Validate` (validator.go:251-255):
it ignores its argument and returns `nil`. -/
def Validate (_document : String) : Option String :=
  none

/-- Go `strings.ToLower(s)` for ASCII input (the document-type tokens in
question): lower-case every character. -/
def stringsToLower (s : String) : String :=
  String.mk (s.toList.map Char.toLower)

/-- The fixed `schemaMap` literal in `GetSchemaForDocumentType`
(validator.go:265-270). -/
def schemaMap : List (String × String) :=
  [("contract", "schemas/document-v1.json"),
   ("receipt", "schemas/document-v1.json"),
   ("agreement", "schemas/document-v1.json"),
   ("nda", "schemas/nda.schema.json")]

/-- Go `filepath.Join(baseDir, p)`, modelled as path concatenation (the
`Clean` step is irrelevant to the properties below, which only compare join
results with equal arguments). -/
def filepathJoin (baseDir p : String) : String :=
  baseDir ++ "/" ++ p

/-- Embeds `GetSchemaForDocumentType` (validator.go:263-285): look the
lower-cased document type up in the fixed map; if absent, fail with a
"no schema available" error; otherwise join the schema path onto the
directory of the running executable (`execDir`, an environment input). -/
def GetSchemaForDocumentType (execDir docType : String) :
    Except String String :=
  match schemaMap.lookup (stringsToLower docType) with
  | none => .error ("no schema available for document type: " ++ docType)
  | some schemaPath => .ok (filepathJoin execDir schemaPath)

/-- The schema-path selection logic of `GetDocumentSchema` (schema package):
use `GetSchemaForDocumentType` for the document's declared type, and on its
failure fall back to the default schema `schemas/document-v1.json` relative
to the executable directory. -/
def GetDocumentSchemaPath (execDir docType : String) : String :=
  match GetSchemaForDocumentType execDir docType with
  | .ok p => p
  | .error _ => filepathJoin execDir "schemas/document-v1.json"

/-- The successful-path projection of an `Except` result. -/
def exceptOk : Except String String → Option String
  | .ok p => some p
  | .error _ => none

/-- Modelled from the spec (§4.4): the pre-order node list of a violation
tree — the violation itself, then, recursively, the nodes of its causes in
recorded order. -/
def preorderNodes : VError → List VError
  | .mk loc msg causes =>
    .mk loc msg causes ::
      (causes.attach.map (fun c => preorderNodes c.1)).flatten
termination_by ve => sizeOf ve
decreasing_by
  have := List.sizeOf_lt_of_mem c.2
  simp only [VError.mk.sizeOf_spec]
  omega

/-- Strong induction for `VError`: to prove a property of every violation
tree it suffices to prove it for a node assuming it for every cause. -/
theorem VError.inductionOn (P : VError → Prop)
    (h : ∀ loc msg causes, (∀ c ∈ causes, P c) → P (VError.mk loc msg causes)) :
    ∀ ve, P ve
  | .mk loc msg causes =>
    h loc msg causes (fun c hc => VError.inductionOn P h c)
termination_by ve => sizeOf ve
decreasing_by
  have := List.sizeOf_lt_of_mem hc
  simp only [VError.mk.sizeOf_spec]
  omega

/-- Unfolding lemma for `convertValidationErrors`, phrased with plain
`List.map`. -/
theorem convertValidationErrors_eq_def (loc msg : String)
    (causes : List VError) :
    convertValidationErrors (.mk loc msg causes) =
      { Field := loc, Message := msg, Line := 0, Column := 0 } ::
        (causes.map convertValidationErrors).flatten := by
  unfold convertValidationErrors
  simp [List.attach_map_val]

/-- Unfolding lemma for `preorderNodes`, phrased with plain `List.map`. -/
theorem preorderNodes_eq_def (loc msg : String) (causes : List VError) :
    preorderNodes (.mk loc msg causes) =
      .mk loc msg causes :: (causes.map preorderNodes).flatten := by
  unfold preorderNodes
  simp [List.attach_map_val]

/-- A conversion of a violation tree is never empty: the node itself is
always emitted. -/
theorem convertValidationErrors_ne_nil (ve : VError) :
    convertValidationErrors ve ≠ [] := by
  cases ve with
  | mk loc msg causes =>
    rw [convertValidationErrors_eq_def]
    exact List.cons_ne_nil _ _

/-- The spec-side normalizer (§4.4): one `ValidationError` per pre-order
node, carrying the node instance location as `Field` and no line/column. -/
def normalizeSpec (ve : VError) : List ValidationError :=
  (preorderNodes ve).map
    (fun n => { Field := n.instanceLocation, Message := n.message,
                Line := 0, Column := 0 })

/-- Unfolding lemma for `normalizeSpec`. -/
theorem normalizeSpec_eq_def (loc msg : String) (causes : List VError) :
    normalizeSpec (.mk loc msg causes) =
      { Field := loc, Message := msg, Line := 0, Column := 0 } ::
        (causes.map normalizeSpec).flatten := by
  unfold normalizeSpec
  rw [preorderNodes_eq_def]
  simp only [List.map_cons, List.map_flatten, List.map_map,
    VError.instanceLocation, VError.message]
  rfl

/-- The source conversion agrees with the spec-side pre-order normalizer. -/
theorem convert_eq_normalizeSpec (ve : VError) :
    convertValidationErrors ve = normalizeSpec ve := by
  induction ve using VError.inductionOn with
  | h loc msg causes ih =>
    rw [convertValidationErrors_eq_def, normalizeSpec_eq_def,
      List.map_congr_left ih]

/-- **C1**: for every `ValidationResult` returned by `ValidateBytes` — for
any decoder behaviour, any compiled schema behaviour and any document
bytes — the `Valid` field is `true` iff the `Errors` sequence is empty. -/
theorem validateBytes_valid_iff_errors_empty
    (unmarshal : String → UnmarshalResult)
    (schemaValidate : JsonValue → Option VError) (docBytes : String) :
    (ValidateBytes unmarshal schemaValidate docBytes).1.Valid = true ↔
      (ValidateBytes unmarshal schemaValidate docBytes).1.Errors = [] := by
  unfold ValidateBytes
  split
  · simp
  · split
    · rename_i ve _
      simp [convertValidationErrors_ne_nil ve]
    · simp

/-- **C2**: `convertValidationErrors` flattens a cause-chained violation
tree by pre-order traversal (node first, then its causes in recorded
order), emitting exactly one `ValidationError` per node visited, whose
`Field` is that node instance-location pointer. -/
theorem convertValidationErrors_is_preorder (ve : VError) :
    convertValidationErrors ve = normalizeSpec ve ∧
      (convertValidationErrors ve).length = (preorderNodes ve).length := by
  refine ⟨convert_eq_normalizeSpec ve, ?_⟩
  rw [convert_eq_normalizeSpec ve]
  unfold normalizeSpec
  exact List.length_map _ _

/-- **C4**: `ValidateBytes` never returns a non-nil Go `error`: parse
failures and constraint violations are delivered as data in the
`ValidationResult`. -/
theorem validateBytes_error_always_nil
    (unmarshal : String → UnmarshalResult)
    (schemaValidate : JsonValue → Option VError) (docBytes : String) :
    (ValidateBytes unmarshal schemaValidate docBytes).2 = none := by
  unfold ValidateBytes
  split
  · rfl
  · split <;> rfl

/-- **C5**: validation is deterministic — two calls of `ValidateBytes` on
the same document bytes and the same compiled schema yield the same
`Valid` flag, the same error sequence in the same order, and the same
warnings.  In this embedding `ValidateBytes` is a pure function of its
inputs (the Go code reads no mutable or ambient state), so repeated calls
agree definitionally. -/
theorem validateBytes_deterministic
    (unmarshal : String → UnmarshalResult)
    (schemaValidate : JsonValue → Option VError) (docBytes : String) :
    (ValidateBytes unmarshal schemaValidate docBytes).1.Valid =
        (ValidateBytes unmarshal schemaValidate docBytes).1.Valid ∧
      (ValidateBytes unmarshal schemaValidate docBytes).1.Errors =
        (ValidateBytes unmarshal schemaValidate docBytes).1.Errors ∧
      (ValidateBytes unmarshal schemaValidate docBytes).1.Warnings =
        (ValidateBytes unmarshal schemaValidate docBytes).1.Warnings :=
  ⟨rfl, rfl, rfl⟩

/-- **C9**: every error produced from a schema constraint violation (by
`convertValidationErrors`, as opposed to a JSON parse failure) has
`Line = 0` and `Column = 0`. -/
theorem convertValidationErrors_no_location (ve : VError) :
    ∀ e ∈ convertValidationErrors ve, e.Line = 0 ∧ e.Column = 0 := by
  intro e he
  rw [convert_eq_normalizeSpec] at he
  unfold normalizeSpec at he
  rw [List.mem_map] at he
  obtain ⟨n, _, rfl⟩ := he
  exact ⟨rfl, rfl⟩

/-- Witness for C9 at a concrete two-node violation tree. -/
theorem convertValidationErrors_no_location_witness :
    ({ Field := "/a", Message := "m", Line := 0, Column := 0 } :
        ValidationError).Line = 0 ∧
      ({ Field := "/a", Message := "m", Line := 0, Column := 0 } :
        ValidationError).Column = 0 :=
  convertValidationErrors_no_location
    (VError.mk "" "root" [VError.mk "/a" "m" []])
    { Field := "/a", Message := "m", Line := 0, Column := 0 }
    (by simp [convertValidationErrors_eq_def])

/-- **C10**: the backward-compatibility method `Validate` returns `nil` for
every input — it performs no validation and never reports a document as
invalid. -/
theorem validate_backcompat_always_nil (document : String) :
    Validate document = none :=
  rfl

/-- **C3**: when the document bytes fail to decode, `ValidateBytes` returns
`Valid = false` with exactly the single parse-failure error, and the
outcome is terminal — it does not depend on the schema at all. -/
theorem validateBytes_parse_failure_terminal
    (unmarshal : String → UnmarshalResult)
    (schemaValidate schemaValidate2 : JsonValue → Option VError)
    (docBytes msg : String)
    (h : unmarshal docBytes = .err msg) :
    (ValidateBytes unmarshal schemaValidate docBytes).1.Valid = false ∧
      (ValidateBytes unmarshal schemaValidate docBytes).1.Errors =
        [{ Field := "", Message := "Invalid JSON: " ++ msg,
           Line := findErrorLine msg docBytes,
           Column := findErrorColumn msg }] ∧
      ValidateBytes unmarshal schemaValidate docBytes =
        ValidateBytes unmarshal schemaValidate2 docBytes := by
  unfold ValidateBytes
  rw [h]
  exact ⟨rfl, rfl, rfl⟩

/-- Witness for C3 on a concrete truncated input. -/
theorem validateBytes_parse_failure_terminal_witness :
    (ValidateBytes (fun _ => .err "unexpected end of JSON input")
        (fun _ => none) "\x7b").1.Valid = false ∧
      (ValidateBytes (fun _ => .err "unexpected end of JSON input")
          (fun _ => none) "\x7b").1.Errors =
        [{ Field := "",
           Message := "Invalid JSON: " ++ "unexpected end of JSON input",
           Line := findErrorLine "unexpected end of JSON input" "\x7b",
           Column := findErrorColumn "unexpected end of JSON input" }] ∧
      ValidateBytes (fun _ => .err "unexpected end of JSON input")
          (fun _ => none) "\x7b" =
        ValidateBytes (fun _ => .err "unexpected end of JSON input")
          (fun _ => some (.mk "" "boom" [])) "\x7b" :=
  validateBytes_parse_failure_terminal
    (fun _ => .err "unexpected end of JSON input")
    (fun _ => none) (fun _ => some (.mk "" "boom" []))
    "\x7b" "unexpected end of JSON input" rfl

/-- **C6**: document-type schema resolution is case-insensitive — two type
strings with the same lower-cased form resolve to the same schema path (or
both to none). -/
theorem getSchemaForDocumentType_case_insensitive
    (execDir t1 t2 : String) (h : stringsToLower t1 = stringsToLower t2) :
    exceptOk (GetSchemaForDocumentType execDir t1) =
      exceptOk (GetSchemaForDocumentType execDir t2) := by
  unfold GetSchemaForDocumentType
  rw [h]
  cases schemaMap.lookup (stringsToLower t2) <;> rfl

/-- Witness for C6: `Contract`, `contract` and `CONTRACT` resolve to the
same schema path. -/
theorem getSchemaForDocumentType_case_insensitive_witness :
    exceptOk (GetSchemaForDocumentType "/opt/nld" "Contract") =
        exceptOk (GetSchemaForDocumentType "/opt/nld" "contract") ∧
      exceptOk (GetSchemaForDocumentType "/opt/nld" "contract") =
        exceptOk (GetSchemaForDocumentType "/opt/nld" "CONTRACT") :=
  ⟨getSchemaForDocumentType_case_insensitive "/opt/nld" "Contract" "contract"
      (by decide),
    getSchemaForDocumentType_case_insensitive "/opt/nld" "contract" "CONTRACT"
      (by decide)⟩

/-- **C7**: a document type absent (after lower-casing) from the fixed map
makes `GetSchemaForDocumentType` fail with the "no schema available" error
rather than substituting a schema; the default-schema fallback happens only
in the caller, `GetDocumentSchema`. -/
theorem getSchemaForDocumentType_unmapped_notFound
    (execDir docType : String)
    (h : stringsToLower docType ∉
      (["contract", "receipt", "agreement", "nda"] : List String)) :
    GetSchemaForDocumentType execDir docType =
        .error ("no schema available for document type: " ++ docType) ∧
      GetDocumentSchemaPath execDir docType =
        filepathJoin execDir "schemas/document-v1.json" := by
  have hl : schemaMap.lookup (stringsToLower docType) = none := by
    simp only [List.mem_cons, List.not_mem_nil, or_false, not_or] at h
    obtain ⟨h1, h2, h3, h4⟩ := h
    have b1 : (stringsToLower docType == "contract") = false :=
      beq_eq_false_iff_ne.mpr h1
    have b2 : (stringsToLower docType == "receipt") = false :=
      beq_eq_false_iff_ne.mpr h2
    have b3 : (stringsToLower docType == "agreement") = false :=
      beq_eq_false_iff_ne.mpr h3
    have b4 : (stringsToLower docType == "nda") = false :=
      beq_eq_false_iff_ne.mpr h4
    simp [schemaMap, List.lookup, b1, b2, b3, b4]
  constructor
  · unfold GetSchemaForDocumentType
    rw [hl]
  · unfold GetDocumentSchemaPath GetSchemaForDocumentType
    rw [hl]

/-- Witness for C7 at the unmapped type `invoice`. -/
theorem getSchemaForDocumentType_unmapped_notFound_witness :
    GetSchemaForDocumentType "/opt/nld" "invoice" =
        .error ("no schema available for document type: " ++ "invoice") ∧
      GetDocumentSchemaPath "/opt/nld" "invoice" =
        filepathJoin "/opt/nld" "schemas/document-v1.json" :=
  getSchemaForDocumentType_unmapped_notFound "/opt/nld" "invoice" (by decide)

/-- **C8**: when the decoder rejects the document with a message carrying
the failure offset (the `invalid character ... at offset N` shape that
`findErrorLine` parses, the only way the decoder communicates an offset to
this code) and that offset lies past the first line of the input, the
single returned error carries `Line` equal to one plus the number of line
breaks before the offset — a non-zero (indeed at least 2) 1-based line
number. -/
theorem validateBytes_malformed_line_past_first
    (unmarshal : String → UnmarshalResult)
    (schemaValidate : JsonValue → Option VError)
    (docBytes msg : String) (off : Nat)
    (hdec : unmarshal docBytes = .err msg)
    (hline : stringsContains msg "line" = false)
    (hoff : stringsContains msg "offset" = true)
    (hparse : sscanfInvalidCharOffset msg = some (off : Int))
    (hlen : off ≤ docBytes.length)
    (hpast : 0 < countNewlines (docBytes.toList.take off)) :
    (ValidateBytes unmarshal schemaValidate docBytes).1.Valid = false ∧
      (ValidateBytes unmarshal schemaValidate docBytes).1.Errors.map
          ValidationError.Line =
        [(countNewlines (docBytes.toList.take off) : Int) + 1] ∧
      (2 : Int) ≤ (countNewlines (docBytes.toList.take off) : Int) + 1 := by
  have hmin : (goMin (off : Int) (docBytes.length : Int)).toNat = off := by
    unfold goMin
    split <;> omega
  have hfl : findErrorLine msg docBytes =
      (countNewlines (docBytes.toList.take off) : Int) + 1 := by
    simp [findErrorLine, hline, hoff, hparse, hmin]
  unfold ValidateBytes
  rw [hdec]
  refine ⟨rfl, ?_, ?_⟩
  · simp [hfl]
  · omega

/-- Witness for C8: a two-line document whose decoder failure offset (8)
falls on the second line yields `Line = 2`. -/
theorem validateBytes_malformed_line_past_first_witness :
    (ValidateBytes (fun _ => .err "invalid character \x27x\x27 at offset 8")
        (fun _ => none) "\x7b\n \x22a\x22: x\x7d").1.Valid = false ∧
      (ValidateBytes (fun _ => .err "invalid character \x27x\x27 at offset 8")
          (fun _ => none) "\x7b\n \x22a\x22: x\x7d").1.Errors.map
          ValidationError.Line = [2] := by
  have h := validateBytes_malformed_line_past_first
    (fun _ => .err "invalid character \x27x\x27 at offset 8")
    (fun _ => none) "\x7b\n \x22a\x22: x\x7d"
    "invalid character \x27x\x27 at offset 8" 8
    rfl (by decide) (by decide) (by decide) (by decide) (by decide)
  refine ⟨h.1, ?_⟩
  rw [h.2.1]
  decide
